import Mathlib

/-!
Verification of the module resolution and lazy-loading engine implemented in
`src/nodepy/context.py` (classes `Require` and `Context`).

The engine is embedded shallowly:

* Python objects with identity (`base.Module` instances) are represented by
  heap indices (`Nat`) into `Ctx.heap`; `is`-comparison is index equality.
* `Context.modules` (a dict mapping filename to Module) is an association
  list with Python dict semantics (`dictGet` / `dictSet` / `dictDel`).
* Exceptions are values of `Exc`; raising is returning `Except.error`.
* `Context.module_stack` is a list; `append`/`pop` act on its end, as Python
  list `append`/`pop` do.
* The trace field of `Ctx` is ghost instrumentation: an `Event.enterBody`
  entry is recorded at exactly the point where `Context.load_module` invokes
  `module.load()`, together with the module stack at that moment.  It is
  write-only and never influences control flow.

`nodepy/base.py` and `nodepy/loader.py` are not part of the sources under
review; the parts of them that the engine touches (the `Request` value, the
`Module` record, `Module.init`, and the Loader's `load` procedure) are
modelled from the specification, as marked on each such definition.
-/

namespace Nodepy

/-- Modelled from the spec: `nodepy.base.Request` (nodepy/base.py is not under
src/) — an immutable value "resolve string `string` starting from directory
`directory`, with extra search paths `path`" (spec section 3).  The
back-reference to the issuing context is omitted; `Context.resolve` compares
requests for identity only via its assertion, which structural equality
models here. -/
structure Request where
  string : String
  directory : String
  path : List String
deriving DecidableEq

/-- Python exception values raised by the engine.  `resolveError` is
`nodepy.base.ResolveError(request, search_paths)`; `runtimeError`,
`valueError`, `keyError`, `assertionError` and `recursionError` are the
corresponding Python built-ins; `loadError` stands for an arbitrary exception
raised by a module body. -/
inductive Exc where
  | resolveError (request : Request) (searchPaths : List String)
  | runtimeError (msg : String)
  | valueError (msg : String)
  | keyError (key : String)
  | assertionError
  | indexError
  | recursionError
  | loadError (msg : String)
deriving DecidableEq

/-- Values stored in a module namespace or exports slot. -/
inductive Val where
  | none
  | int (n : Int)
  | str (s : String)
deriving DecidableEq

/-- Modelled from the spec: the mutable state of a `nodepy.base.Module`
(nodepy/base.py is not under src/), restricted to the fields that
`src/nodepy/context.py` reads and writes: `filename` (the canonical cache
key), `loaded`, `exception`, `exports` and `namespace` (spec section 3,
Module).  `exportsVal = Option.none` is the `NotImplemented` "not yet set"
sentinel, distinct from an exports value explicitly set to `Val.none`. -/
structure ModuleData where
  filename : String
  loaded : Bool
  exception : Option Exc
  exportsVal : Option Val
  namespaceVal : Val
deriving DecidableEq

/-- Ghost observation: `enterBody id stack` records that `Context.load_module`
invoked `module.load()` on the module at heap index `id` while
`Context.module_stack` equalled `stack`. -/
inductive Event where
  | enterBody (id : Nat) (stackAtEntry : List Nat)
deriving DecidableEq

/-- The mutable state owned by one `Context` (src/nodepy/context.py lines
153-161): the module heap (object identity), `Context.modules`,
`Context.module_stack`, and the ghost trace. -/
structure Ctx where
  heap : List ModuleData
  modules : List (String × Nat)
  moduleStack : List Nat
  trace : List Event
deriving DecidableEq

/-- Python `dict.get`: first binding of the key, if any. -/
def dictGet (d : List (String × Nat)) (k : String) : Option Nat :=
  match d with
  | [] => Option.none
  | (k1, v) :: rest => if k1 = k then some v else dictGet rest k

/-- Python `dict[k] = v`: replace the binding in place, else append. -/
def dictSet (d : List (String × Nat)) (k : String) (v : Nat) : List (String × Nat) :=
  match d with
  | [] => [(k, v)]
  | (k1, v1) :: rest => if k1 = k then (k, v) :: rest else (k1, v1) :: dictSet rest k v

/-- Python `del dict[k]`: remove the binding of the key. -/
def dictDel (d : List (String × Nat)) (k : String) : List (String × Nat) :=
  match d with
  | [] => []
  | (k1, v1) :: rest => if k1 = k then rest else (k1, v1) :: dictDel rest k

/-- Placeholder module returned for a dangling heap index. -/
def defaultModule : ModuleData :=
  { filename := ("")
    loaded := false
    exception := Option.none
    exportsVal := Option.none
    namespaceVal := Val.none }

/-- Dereference a module heap index. -/
def getMod (ctx : Ctx) (id : Nat) : ModuleData :=
  ctx.heap.getD id defaultModule

/-- Mutate the module at a heap index (no-op for a dangling index). -/
def setMod (h : List ModuleData) (id : Nat) (f : ModuleData → ModuleData) :
    List ModuleData :=
  h.set id (f (h.getD id defaultModule))

/-- A resolver strategy's answer: either it raises `ResolveError(request,
search_paths)` (the `fail` case carries the request object stored on that
error), or it returns some Python object — a module (by heap index) or, for a
misbehaving strategy, a non-Module value. -/
inductive RObj where
  | moduleRef (id : Nat)
  | nonModule (typename : String)
deriving DecidableEq

/-- Outcome of `resolver.resolve_module(request)`. -/
inductive ROut where
  | fail (request : Request) (searchPaths : List String)
  | ret (obj : RObj)
deriving DecidableEq

/-- A resolver strategy, as consulted by `Context.resolve`. -/
def Resolver := Request → ROut

/-- Error message of src/nodepy/context.py line 217 (strategy returned a
non-Module object). -/
def nonModuleMsg (typename : String) : String :=
  ("resolver returned non-Module object ") ++ typename

/-- Error message of src/nodepy/context.py line 222 (strategy returned a new
Module besides an existing cache entry). -/
def collisionMsg : String :=
  ("resolver returned new Module object besides an existing entry in the cache")

/-- Error message of src/nodepy/context.py line 246. -/
def notInModulesMsg : String :=
  ("module can not be loaded when not in Context.modules")

/-- Error message of src/nodepy/context.py line 262. -/
def stackCorruptedMsg : String :=
  ("Context.module_stack corrupted")

/-- The resolver loop of `Context.resolve` (src/nodepy/context.py lines
207-228), with `searchPaths` the accumulated `search_paths` list.  Each
strategy is tried in order; a `ResolveError` whose stored request is the one
being resolved extends `search_paths` and continues (a different request
trips the `assert exc.request is request`); a non-Module result or an
identity collision with a cached module raises `RuntimeError`; otherwise the
module is registered under its filename and returned; an empty chain raises
`ResolveError(request, search_paths)`. -/
def resolveGo (resolvers : List Resolver) (req : Request) (ctx : Ctx)
    (searchPaths : List String) : Ctx × Except Exc Nat :=
  match resolvers with
  | [] => (ctx, Except.error (Exc.resolveError req searchPaths))
  | r :: rest =>
    match r req with
    | ROut.fail req1 paths =>
      if req1 = req then resolveGo rest req ctx (searchPaths ++ paths)
      else (ctx, Except.error Exc.assertionError)
    | ROut.ret (RObj.nonModule tn) =>
      (ctx, Except.error (Exc.runtimeError (nonModuleMsg tn)))
    | ROut.ret (RObj.moduleRef id) =>
      match dictGet ctx.modules (getMod ctx id).filename with
      | Option.none =>
        ({ ctx with modules := dictSet ctx.modules (getMod ctx id).filename id },
         Except.ok id)
      | some haveId =>
        if haveId = id then
          ({ ctx with modules := dictSet ctx.modules (getMod ctx id).filename id },
           Except.ok id)
        else (ctx, Except.error (Exc.runtimeError collisionMsg))

/-- Function `Context.resolve` (src/nodepy/context.py lines 201-228) applied to an
already-constructed `Request`, starting with an empty `search_paths` list. -/
def ctxResolve (resolvers : List Resolver) (ctx : Ctx) (req : Request) :
    Ctx × Except Exc Nat :=
  resolveGo resolvers req ctx []

/-- The `search_paths` a strategy would contribute for a request (empty when
it does not fail). -/
def failPaths (req : Request) (r : Resolver) : List String :=
  match r req with
  | ROut.fail _ paths => paths
  | ROut.ret _ => []

/-- Concatenation, in chain order, of every strategy's tried search paths. -/
def triedPaths (req : Request) : List Resolver → List String
  | [] => []
  | r :: rest => failPaths req r ++ triedPaths req rest

/-- Modelled from the spec: `Module.init` (nodepy/base.py is not under src/)
— prepares the module for loading with a fresh namespace and the exports
not-yet-set sentinel (spec section 3, Module lifecycle: a module enters
loading with an empty namespace that the body then populates). -/
def initModule (ctx : Ctx) (id : Nat) : Ctx :=
  { ctx with
    heap := setMod ctx.heap id (fun m =>
      { m with namespaceVal := Val.none, exportsVal := Option.none }) }

/-- The state `Context.load_module` has built at the moment it invokes
`module.load()`: after the optional `module.init()` (line 250), after
`self.module_stack.append(module)` (line 251), with the ghost body-entry
event recorded. -/
def pushedState (ctx : Ctx) (id : Nat) (doInit : Bool) : Ctx :=
  let ctxA := if doInit then initModule ctx id else ctx
  let ctxB := { ctxA with moduleStack := ctxA.moduleStack ++ [id] }
  { ctxB with trace := ctxB.trace ++ [Event.enterBody id ctxB.moduleStack] }

/-- The `except`/`else` clauses of `Context.load_module`
(src/nodepy/context.py lines 254-259), applied to the outcome of
`module.load()`: on a raise, store the exception on the module
(`module.exception = sys.exc_info()`), then `del self.modules[module.filename]`
(when the entry is already gone, the `del` itself raises `KeyError`,
replacing the original exception), and re-raise; on normal return, mark the
module loaded. -/
def storePhase (id : Nat) : Ctx × Except Exc Unit → Ctx × Except Exc Unit
  | (ctx1, Except.error e) =>
    let ctx2 :=
      { ctx1 with heap := setMod ctx1.heap id (fun m => { m with exception := some e }) }
    match dictGet ctx2.modules (getMod ctx2 id).filename with
    | Option.none => (ctx2, Except.error (Exc.keyError (getMod ctx2 id).filename))
    | some _ =>
      ({ ctx2 with modules := dictDel ctx2.modules (getMod ctx2 id).filename },
       Except.error e)
  | (ctx1, Except.ok _) =>
    ({ ctx1 with heap := setMod ctx1.heap id (fun m => { m with loaded := true }) },
     Except.ok ())

/-- The `finally` clause (lines 260-262): pop the stack; a popped entry that
is not the pushed module raises
`RuntimeError('Context.module_stack corrupted')`, replacing any in-flight
result; popping an empty stack raises `IndexError`. -/
def popPhase (id : Nat) (res2 : Ctx × Except Exc Unit) : Ctx × Except Exc Unit :=
  match res2.1.moduleStack.getLast? with
  | Option.none => (res2.1, Except.error Exc.indexError)
  | some top =>
    if top = id then
      ({ res2.1 with moduleStack := res2.1.moduleStack.dropLast }, res2.2)
    else
      ({ res2.1 with moduleStack := res2.1.moduleStack.dropLast },
       Except.error (Exc.runtimeError stackCorruptedMsg))

/-- Function `Context.load_module` (src/nodepy/context.py lines 230-262) with the
Loader's load procedure abstracted as `runBody` (applied to the state at the
moment `module.load()` is called; it returns the state it leaves behind and
either normal completion or a raised exception).  Control flow:

* `if module.exception: six.reraise(*module.exception)` (lines 241-242);
* `if module.loaded: return` (lines 243-244);
* `if module.filename not in self.modules: raise RuntimeError` (245-247);
* `module.init()` when `do_init`, push, `module.load()` (249-253, as
  `pushedState`), then `storePhase` and, `finally`, `popPhase`. -/
def loadModuleWith (runBody : Ctx → Ctx × Except Exc Unit) (ctx : Ctx)
    (id : Nat) (doInit : Bool) : Ctx × Except Exc Unit :=
  match (getMod ctx id).exception with
  | some e => (ctx, Except.error e)
  | Option.none =>
    if (getMod ctx id).loaded then (ctx, Except.ok ())
    else
      match dictGet ctx.modules (getMod ctx id).filename with
      | Option.none => (ctx, Except.error (Exc.runtimeError notInModulesMsg))
      | some _ => popPhase id (storePhase id (runBody (pushedState ctx id doInit)))

/-- Modelled from the spec: the shape of a module body as run by the Loader's
load procedure (nodepy/loader.py and nodepy/base.py are not under src/; spec
section 6 gives the Loader contract: `load(module)` populates the module's
namespace/exports or raises, and the body may issue further requests through
its require facade). -/
inductive Body where
  | ret
  | raise (e : Exc)
  | setExports (v : Val) (rest : Body)
  | setNamespace (v : Val) (rest : Body)
  | require (request : String) (rest : Body)

/-- Modelled from the spec: execution of a module body, fuel-bounded (running
out of fuel is Python's `RecursionError`).  `bodies` assigns each heap index
its body; a `require` step behaves as `Require.__call__`
(src/nodepy/context.py lines 29-38): resolve through the Engine, then call
`Context.load_module` exactly when the module is not `loaded`. -/
def execBody (bodies : Nat → Body) (resolvers : List Resolver) :
    Nat → Ctx → Nat → Body → Ctx × Except Exc Unit
  | 0, ctx, _, _ => (ctx, Except.error Exc.recursionError)
  | Nat.succ f, ctx, id, b =>
    match b with
    | Body.ret => (ctx, Except.ok ())
    | Body.raise e => (ctx, Except.error e)
    | Body.setExports v rest =>
      execBody bodies resolvers f
        { ctx with heap := setMod ctx.heap id (fun m => { m with exportsVal := some v }) }
        id rest
    | Body.setNamespace v rest =>
      execBody bodies resolvers f
        { ctx with heap := setMod ctx.heap id (fun m => { m with namespaceVal := v }) }
        id rest
    | Body.require s rest =>
      match ctxResolve resolvers ctx (Request.mk s (getMod ctx id).filename []) with
      | (ctx1, Except.error e) => (ctx1, Except.error e)
      | (ctx1, Except.ok rid) =>
        let afterLoad : Ctx × Except Exc Unit :=
          if (getMod ctx1 rid).loaded then (ctx1, Except.ok ())
          else
            loadModuleWith (fun c => execBody bodies resolvers f c rid (bodies rid))
              ctx1 rid true
        match afterLoad with
        | (ctx2, Except.error e) => (ctx2, Except.error e)
        | (ctx2, Except.ok _) => execBody bodies resolvers f ctx2 id rest

/-- Function `Context.load_module` with the Loader load procedure instantiated to
the fuel-bounded body interpreter. -/
def loadModule (fuel : Nat) (bodies : Nat → Body) (resolvers : List Resolver)
    (ctx : Ctx) (id : Nat) (doInit : Bool) : Ctx × Except Exc Unit :=
  loadModuleWith (fun c => execBody bodies resolvers fuel c id (bodies id))
    ctx id doInit

/-- The per-directory `Require` facade's own state (src/nodepy/context.py
lines 21-27): its directory, its `path` list of extra search paths, and its
request-string cache. -/
structure Facade where
  directory : String
  path : List String
  cache : List (String × Nat)
deriving DecidableEq

/-- The re-resolution arm of `Require.resolve` (src/nodepy/context.py lines
44-45): `module = self.context.resolve(request, self.directory, self.path)`
followed by `self.cache[request] = module` — the facade cache entry is
overwritten only when `Context.resolve` returns normally; a raised error
propagates before the assignment. -/
def requireReResolve (resolvers : List Resolver) (ctx : Ctx) (fc : Facade)
    (request : String) : Ctx × Facade × Except Exc Nat :=
  match ctxResolve resolvers ctx (Request.mk request fc.directory fc.path) with
  | (ctx1, Except.ok id) =>
    (ctx1, { fc with cache := dictSet fc.cache request id }, Except.ok id)
  | (ctx1, Except.error e) => (ctx1, fc, Except.error e)

/-- Function `Require.resolve` (src/nodepy/context.py lines 40-46): look the request
string up in the facade cache; on a miss (`not module`) or when the cached
module carries a stored exception (`module.exception`), walk the Engine's
resolver chain again and overwrite the cache entry; otherwise return the
cached module untouched. -/
def requireResolve (resolvers : List Resolver) (ctx : Ctx) (fc : Facade)
    (request : String) : Ctx × Facade × Except Exc Nat :=
  match dictGet fc.cache request with
  | Option.none => requireReResolve resolvers ctx fc request
  | some id =>
    if (getMod ctx id).exception.isSome then requireReResolve resolvers ctx fc request
    else (ctx, fc, Except.ok id)

/-- What `Require.__call__` hands back: a value (exports or namespace) or the
Module object itself. -/
inductive CallResult where
  | val (v : Val)
  | modRef (id : Nat)
deriving DecidableEq

/-- The return-value selection of `Require.__call__` (src/nodepy/context.py
lines 33-38): with `exports` wanted, `module.namespace` exactly when
`module.exports is NotImplemented`, else `module.exports`; otherwise the
Module itself. -/
def unwrapExports (ctx : Ctx) (id : Nat) (wantExports : Bool) : CallResult :=
  if wantExports then
    match (getMod ctx id).exportsVal with
    | Option.none => CallResult.val (getMod ctx id).namespaceVal
    | some v => CallResult.val v
  else CallResult.modRef id

/-- Function `Require.__call__` (src/nodepy/context.py lines 29-38): resolve through
the facade, `Context.load_module` when the module is not loaded, then unwrap
per `unwrapExports`. -/
def requireCall (fuel : Nat) (bodies : Nat → Body) (resolvers : List Resolver)
    (ctx : Ctx) (fc : Facade) (request : String) (wantExports : Bool) :
    Ctx × Facade × Except Exc CallResult :=
  match requireResolve resolvers ctx fc request with
  | (ctx1, fc1, Except.error e) => (ctx1, fc1, Except.error e)
  | (ctx1, fc1, Except.ok id) =>
    let loadRes : Ctx × Except Exc Unit :=
      if (getMod ctx1 id).loaded then (ctx1, Except.ok ())
      else loadModule fuel bodies resolvers ctx1 id true
    match loadRes with
    | (ctx2, Except.error e) => (ctx2, fc1, Except.error e)
    | (ctx2, Except.ok _) => (ctx2, fc1, Except.ok (unwrapExports ctx2 id wantExports))

/-- The candidate loop of `Require.try_` (src/nodepy/context.py lines 82-96),
with `attempt` abstracting `self(request, exports=exports)` (or
`self.resolve(request)` when `load` is false) and `excInfo` the saved
`exc_info`.  Only `ResolveError` is caught; a caught error whose stored
request string differs from the candidate just attempted is re-raised at
once; when the candidates run out, the last saved `ResolveError` is
re-raised, and `ValueError` is raised when none was ever saved (zero
requests). -/
def tryGo (attempt : String → Except Exc Val) :
    List String → Option Exc → Except Exc Val
  | [], Option.none => Except.error (Exc.valueError ("no requests specified"))
  | [], some e => Except.error e
  | r :: rest, _ =>
    match attempt r with
    | Except.ok v => Except.ok v
    | Except.error e =>
      match e with
      | Exc.resolveError q paths =>
        if q.string ≠ r then Except.error (Exc.resolveError q paths)
        else tryGo attempt rest (some (Exc.resolveError q paths))
      | _ => Except.error e

/-- Function `Require.try_` (src/nodepy/context.py lines 72-96). -/
def tryMany (attempt : String → Except Exc Val) (requests : List String) :
    Except Exc Val :=
  tryGo attempt requests Option.none

/-- A single module `A.py` at heap index 0, unloaded, with no stored
exception. -/
def cycleHeap : List ModuleData :=
  [{ filename := ("A.py")
     loaded := false
     exception := Option.none
     exportsVal := Option.none
     namespaceVal := Val.none }]

/-- Module 0's body issues `require("A")` — a direct cyclic require of the
module itself — and would then finish. -/
def cycleBodies : Nat → Body :=
  fun _ => Body.require ("A") Body.ret

/-- A resolver strategy that resolves the request string `A` to module 0 and
fails on anything else. -/
def cycleResolver : Resolver :=
  fun req =>
    if req.string = ("A") then ROut.ret (RObj.moduleRef 0)
    else ROut.fail req [("/no/such/path")]

/-- Engine state right after `Context.resolve` first resolved and registered
module 0: cached under its filename, nothing loading yet. -/
def cycleCtx : Ctx :=
  { heap := cycleHeap
    modules := [(("A.py"), 0)]
    moduleStack := []
    trace := [] }

/-- Function `Context.load_module` applied to module 0 of the cyclic scenario, with
fuel 2 (enough for two nested re-entries before the recursion guard cuts the
run off). -/
def cycleRun : Ctx × Except Exc Unit :=
  loadModule 2 cycleBodies [cycleResolver] cycleCtx 0 true

/-- Concrete two-module engine state used to instantiate theorems: module 0
(`a.py`) is loaded with exports explicitly set to the value `Val.none`
(distinct from the not-set sentinel) and a non-trivial namespace; module 1
(`b.py`) is unloaded and carries a stored load error. -/
def wCtx : Ctx :=
  { heap :=
      [{ filename := ("a.py")
         loaded := true
         exception := Option.none
         exportsVal := some Val.none
         namespaceVal := Val.int 7 },
       { filename := ("b.py")
         loaded := false
         exception := some (Exc.loadError ("boom"))
         exportsVal := Option.none
         namespaceVal := Val.none }]
    modules := [(("a.py"), 0), (("b.py"), 1)]
    moduleStack := []
    trace := [] }

/-- Single unloaded module `m.py`, registered in the cache, ready to load. -/
def w2ctx : Ctx :=
  { heap :=
      [{ filename := ("m.py")
         loaded := false
         exception := Option.none
         exportsVal := Option.none
         namespaceVal := Val.none }]
    modules := [(("m.py"), 0)]
    moduleStack := []
    trace := [] }

/-- A load procedure that raises immediately, leaving the state as it was. -/
def w2body : Ctx → Ctx × Except Exc Unit :=
  fun c => (c, Except.error (Exc.loadError ("boom")))

/-- A failed module that has already been evicted from `Context.modules`. -/
def w9ctx : Ctx :=
  { heap :=
      [{ filename := ("e.py")
         loaded := false
         exception := some Exc.recursionError
         exportsVal := Option.none
         namespaceVal := Val.none }]
    modules := []
    moduleStack := []
    trace := [] }

/-- A concrete request to resolve. -/
def wreq : Request := { string := ("x"), directory := ("/d"), path := [] }

/-- A strategy that fails after trying two locations. -/
def wres1 : Resolver := fun req => ROut.fail req [("/d/x"), ("/d/x.py")]

/-- A strategy that fails after trying one location. -/
def wres2 : Resolver := fun req => ROut.fail req [("/lib/x")]

/-- A misbehaving strategy that returns a non-Module object. -/
def wresBad : Resolver := fun _ => ROut.ret (RObj.nonModule ("int"))

/-- Trivial bodies for scenarios in which nothing gets loaded. -/
def wBodies : Nat → Body := fun _ => Body.ret

/-- A facade whose cache maps the request string `r` to module 0. -/
def wFacade : Facade :=
  { directory := ("/d"), path := [], cache := [(("r"), 0)] }

/-- An attempt function for the `try_` loop: the request `ok` succeeds,
anything else fails with a `ResolveError` that names the attempted string. -/
def wAttempt : String → Except Exc Val :=
  fun s =>
    if s = ("ok") then Except.ok (Val.int 1)
    else
      Except.error
        (Exc.resolveError { string := s, directory := ("/d"), path := [] } [("/p")])

theorem getD_set_self (l : List ModuleData) (i : Nat) (a d : ModuleData) :
    (l.set i a).getD i d = if i < l.length then a else l.getD i d := by
  induction l generalizing i with
  | nil => simp [List.set]
  | cons x xs ih =>
    cases i with
    | zero => simp [List.getD]
    | succ n =>
      simp only [List.set, List.getD_cons_succ, List.length_cons]
      rw [ih n]
      simp [Nat.succ_lt_succ_iff]

theorem setMod_filename (h : List ModuleData) (id : Nat)
    (f : ModuleData → ModuleData) (hf : ∀ m, (f m).filename = m.filename) :
    ((setMod h id f).getD id defaultModule).filename
      = (h.getD id defaultModule).filename := by
  unfold setMod
  rw [getD_set_self]
  split
  · rw [hf]
  · rfl

theorem getMod_heapUpdate (ctx1 : Ctx) (id : Nat) (f : ModuleData → ModuleData)
    (hf : ∀ m, (f m).filename = m.filename) :
    (getMod { ctx1 with heap := setMod ctx1.heap id f } id).filename
      = (getMod ctx1 id).filename :=
  setMod_filename ctx1.heap id f hf

theorem storePhase_error (id : Nat) (ctx1 : Ctx) (e : Exc) (k : Nat)
    (hdel : dictGet ctx1.modules (getMod ctx1 id).filename = some k) :
    storePhase id (ctx1, Except.error e) =
      ({ ctx1 with
           heap := setMod ctx1.heap id (fun m => { m with exception := some e }),
           modules := dictDel ctx1.modules (getMod ctx1 id).filename },
       Except.error e) := by
  have hfn :=
    getMod_heapUpdate ctx1 id (fun m => { m with exception := some e }) (fun m => rfl)
  simp only [storePhase]
  rw [show ({ ctx1 with
      heap := setMod ctx1.heap id
        (fun m => { m with exception := some e }) } : Ctx).modules = ctx1.modules from rfl,
    hfn, hdel]

theorem storePhase_ok (id : Nat) (ctx1 : Ctx) (u : Unit) :
    storePhase id (ctx1, Except.ok u) =
      ({ ctx1 with heap := setMod ctx1.heap id (fun m => { m with loaded := true }) },
       Except.ok ()) := rfl

theorem storePhase_stack (id : Nat) (p : Ctx × Except Exc Unit) :
    (storePhase id p).1.moduleStack = p.1.moduleStack := by
  obtain ⟨ctx1, r⟩ := p
  cases r with
  | ok u => rfl
  | error e =>
    simp only [storePhase]
    split
    · rfl
    · rfl

theorem popPhase_hit (id : Nat) (res2 : Ctx × Except Exc Unit)
    (hstack : res2.1.moduleStack.getLast? = some id) :
    popPhase id res2 =
      ({ res2.1 with moduleStack := res2.1.moduleStack.dropLast }, res2.2) := by
  simp [popPhase, hstack]

theorem popPhase_snd_mismatch (id k : Nat) (res2 : Ctx × Except Exc Unit)
    (hstack : res2.1.moduleStack.getLast? = some k) (hk : k ≠ id) :
    (popPhase id res2).2 = Except.error (Exc.runtimeError stackCorruptedMsg) := by
  simp [popPhase, hstack, hk]

theorem loadModuleWith_open (runBody : Ctx → Ctx × Except Exc Unit) (ctx : Ctx)
    (id : Nat) (doInit : Bool) (j : Nat)
    (hexc : (getMod ctx id).exception = Option.none)
    (hloaded : (getMod ctx id).loaded = false)
    (hmem : dictGet ctx.modules (getMod ctx id).filename = some j) :
    loadModuleWith runBody ctx id doInit =
      popPhase id (storePhase id (runBody (pushedState ctx id doInit))) := by
  simp [loadModuleWith, hexc, hloaded, hmem]

/-- C1: the specification states that `Module.load` runs at most once per
module across the Engine's lifetime, and that a cyclic require is answered
with the in-progress module's partial namespace — implemented by checking the
`Loading` state before attempting a push — so that no module is ever on the
load stack twice.  The engine of src/nodepy/context.py has no such check:
`Context.load_module` guards only on `module.exception`, `module.loaded`
(set only after the body completes) and cache membership, and
`Require.__call__` guards only on `module.loaded`.  Evaluating the engine on
a module whose body requires itself shows the body being entered three times
before the recursion guard aborts the run, the second entry occurring while
the module is already on the load stack (`module_stack = [0, 0]`); the run
aborts with an internal error instead of returning the partial namespace. -/
theorem cyclic_require_reenters_load :
    cycleRun.1.trace =
      [Event.enterBody 0 [0], Event.enterBody 0 [0, 0],
       Event.enterBody 0 [0, 0, 0]] ∧
    cycleRun.2 = Except.error (Exc.keyError ("A.py")) :=
  ⟨rfl, rfl⟩

/-- C3: a stored load error is sticky — `Context.load_module` on a module
instance whose `exception` slot is set re-raises exactly that stored error,
leaves the whole engine state (cache, stack, heap, ghost trace) untouched,
and never invokes the body (`runBody` is universally quantified and unused);
and a `require` call whose resolution step hands back that same instance
(still carrying the error, not yet loaded) likewise re-raises the stored
error. -/
theorem sticky_error_replay :
    (∀ (runBody : Ctx → Ctx × Except Exc Unit) (ctx : Ctx) (id : Nat)
       (doInit : Bool) (e : Exc),
        (getMod ctx id).exception = some e →
        loadModuleWith runBody ctx id doInit = (ctx, Except.error e))
  ∧ (∀ (fuel : Nat) (bodies : Nat → Body) (resolvers : List Resolver)
       (ctx ctx1 : Ctx) (fc fc1 : Facade) (request : String)
       (wantExports : Bool) (id : Nat) (e : Exc),
        requireResolve resolvers ctx fc request = (ctx1, fc1, Except.ok id) →
        (getMod ctx1 id).exception = some e →
        (getMod ctx1 id).loaded = false →
        requireCall fuel bodies resolvers ctx fc request wantExports
          = (ctx1, fc1, Except.error e)) := by
  constructor
  · intro runBody ctx id doInit e hexc
    simp [loadModuleWith, hexc]
  · intro fuel bodies resolvers ctx ctx1 fc fc1 request wantExports id e hres hexc hloaded
    simp [requireCall, hres, hloaded, loadModule, loadModuleWith, hexc]

/-- C9: the guard order of `Context.load_module` — the stored-exception check
comes first and wins even for a module that is absent from `Context.modules`
(the first conjunct has no cache-membership hypothesis, and the witness below
instantiates it with an evicted module); an already-loaded module returns
normally; and the `not in Context.modules` internal error fires exactly for
modules with no stored exception that are not loaded. -/
theorem load_module_guard_precedence :
    (∀ (runBody : Ctx → Ctx × Except Exc Unit) (ctx : Ctx) (id : Nat)
       (doInit : Bool) (e : Exc),
        (getMod ctx id).exception = some e →
        loadModuleWith runBody ctx id doInit = (ctx, Except.error e))
  ∧ (∀ (runBody : Ctx → Ctx × Except Exc Unit) (ctx : Ctx) (id : Nat)
       (doInit : Bool),
        (getMod ctx id).exception = Option.none →
        (getMod ctx id).loaded = true →
        loadModuleWith runBody ctx id doInit = (ctx, Except.ok ()))
  ∧ (∀ (runBody : Ctx → Ctx × Except Exc Unit) (ctx : Ctx) (id : Nat)
       (doInit : Bool),
        (getMod ctx id).exception = Option.none →
        (getMod ctx id).loaded = false →
        dictGet ctx.modules (getMod ctx id).filename = Option.none →
        loadModuleWith runBody ctx id doInit
          = (ctx, Except.error (Exc.runtimeError notInModulesMsg))) := by
  refine ⟨?_, ?_, ?_⟩
  · intro runBody ctx id doInit e hexc
    simp [loadModuleWith, hexc]
  · intro runBody ctx id doInit hexc hloaded
    simp [loadModuleWith, hexc, hloaded]
  · intro runBody ctx id doInit hexc hloaded hmem
    simp [loadModuleWith, hexc, hloaded, hmem]

/-- C2: behaviour of `Context.load_module` once its guards pass.  When the
Loader's load procedure raises `e`, the exception is stored on the module,
the module's cache entry is deleted, the load stack is popped, and `e` is
re-raised; when it returns normally, the module is marked loaded and the
stack is likewise popped; and in either case a popped entry different from
the pushed module raises the fatal
`RuntimeError('Context.module_stack corrupted')`. -/
theorem load_failure_handling (runBody : Ctx → Ctx × Except Exc Unit)
    (ctx : Ctx) (id : Nat) (doInit : Bool) (j : Nat)
    (hexc : (getMod ctx id).exception = Option.none)
    (hloaded : (getMod ctx id).loaded = false)
    (hmem : dictGet ctx.modules (getMod ctx id).filename = some j) :
    (∀ (ctx1 : Ctx) (e : Exc) (k : Nat),
       runBody (pushedState ctx id doInit) = (ctx1, Except.error e) →
       dictGet ctx1.modules (getMod ctx1 id).filename = some k →
       ctx1.moduleStack.getLast? = some id →
       loadModuleWith runBody ctx id doInit =
         ({ ctx1 with
              heap := setMod ctx1.heap id (fun m => { m with exception := some e }),
              modules := dictDel ctx1.modules (getMod ctx1 id).filename,
              moduleStack := ctx1.moduleStack.dropLast },
          Except.error e))
  ∧ (∀ (ctx1 : Ctx),
       runBody (pushedState ctx id doInit) = (ctx1, Except.ok ()) →
       ctx1.moduleStack.getLast? = some id →
       loadModuleWith runBody ctx id doInit =
         ({ ctx1 with
              heap := setMod ctx1.heap id (fun m => { m with loaded := true }),
              moduleStack := ctx1.moduleStack.dropLast },
          Except.ok ()))
  ∧ (∀ (ctx1 : Ctx) (r : Except Exc Unit) (k : Nat),
       runBody (pushedState ctx id doInit) = (ctx1, r) →
       ctx1.moduleStack.getLast? = some k → k ≠ id →
       (loadModuleWith runBody ctx id doInit).2 =
         Except.error (Exc.runtimeError stackCorruptedMsg)) := by
  refine ⟨?_, ?_, ?_⟩
  · intro ctx1 e k hrun hdel hstack
    rw [loadModuleWith_open runBody ctx id doInit j hexc hloaded hmem, hrun,
      storePhase_error id ctx1 e k hdel, popPhase_hit id _ hstack]
  · intro ctx1 hrun hstack
    rw [loadModuleWith_open runBody ctx id doInit j hexc hloaded hmem, hrun,
      storePhase_ok, popPhase_hit id _ hstack]
  · intro ctx1 r k hrun hstack hk
    rw [loadModuleWith_open runBody ctx id doInit j hexc hloaded hmem, hrun]
    exact popPhase_snd_mismatch id k _ ((storePhase_stack id (ctx1, r)).symm ▸ hstack) hk

theorem resolveGo_all_fail (req : Request) (ctx : Ctx) (pre : List Resolver) :
    ∀ (rest : List Resolver) (acc : List String),
      (∀ s ∈ pre, ∃ paths, s req = ROut.fail req paths) →
      resolveGo (pre ++ rest) req ctx acc
        = resolveGo rest req ctx (acc ++ triedPaths req pre) := by
  induction pre with
  | nil => intro rest acc h; simp [triedPaths]
  | cons r pre ih =>
    intro rest acc h
    obtain ⟨paths, hr⟩ := h r (by simp)
    have hpre : ∀ s ∈ pre, ∃ paths, s req = ROut.fail req paths :=
      fun s hs => h s (by simp [hs])
    rw [List.cons_append]
    have hfp : failPaths req r = paths := by simp [failPaths, hr]
    simp only [resolveGo, hr, if_true, eq_self_iff_true]
    rw [ih rest (acc ++ paths) hpre, triedPaths, hfp, List.append_assoc]

theorem resolveGo_cases (req : Request) (ctx : Ctx) (rs : List Resolver) :
    ∀ (acc : List String),
      (∃ e, resolveGo rs req ctx acc = (ctx, Except.error e)) ∨
      (∃ id, resolveGo rs req ctx acc =
        ({ ctx with modules := dictSet ctx.modules (getMod ctx id).filename id },
         Except.ok id)) := by
  induction rs with
  | nil => intro acc; exact Or.inl ⟨_, rfl⟩
  | cons r rest ih =>
    intro acc
    cases hr : r req with
    | fail req1 paths =>
      by_cases hq : req1 = req
      · simp only [resolveGo, hr, if_pos hq]
        exact ih (acc ++ paths)
      · simp only [resolveGo, hr, if_neg hq]
        exact Or.inl ⟨_, rfl⟩
    | ret obj =>
      cases obj with
      | nonModule tn =>
        simp only [resolveGo, hr]
        exact Or.inl ⟨_, rfl⟩
      | moduleRef id =>
        cases hm : dictGet ctx.modules (getMod ctx id).filename with
        | none =>
          simp only [resolveGo, hr, hm]
          exact Or.inr ⟨id, rfl⟩
        | some haveId =>
          by_cases hj : haveId = id
          · simp only [resolveGo, hr, hm, if_pos hj]
            exact Or.inr ⟨id, rfl⟩
          · simp only [resolveGo, hr, hm, if_neg hj]
            exact Or.inl ⟨_, rfl⟩

/-- C4: `Context.resolve` consults the chain in registration order.  When
every strategy fails (reporting the request being resolved), the result is
`ResolveError(request, search_paths)` where `search_paths` is the
concatenation, in chain order, of each strategy's tried search-path lists;
and the first strategy that succeeds short-circuits the chain — the
strategies after it are irrelevant to the result, which registers and
returns that strategy's module. -/
theorem resolve_order_and_aggregate (ctx : Ctx) (req : Request) :
    (∀ (resolvers : List Resolver),
       (∀ s ∈ resolvers, ∃ paths, s req = ROut.fail req paths) →
       ctxResolve resolvers ctx req
         = (ctx, Except.error (Exc.resolveError req (triedPaths req resolvers))))
  ∧ (∀ (pre post : List Resolver) (r : Resolver) (id : Nat),
       (∀ s ∈ pre, ∃ paths, s req = ROut.fail req paths) →
       r req = ROut.ret (RObj.moduleRef id) →
       (dictGet ctx.modules (getMod ctx id).filename = Option.none ∨
        dictGet ctx.modules (getMod ctx id).filename = some id) →
       ctxResolve (pre ++ r :: post) ctx req
         = ({ ctx with modules := dictSet ctx.modules (getMod ctx id).filename id },
            Except.ok id)) := by
  constructor
  · intro resolvers h
    have hgo := resolveGo_all_fail req ctx resolvers [] [] h
    rw [List.append_nil] at hgo
    rw [ctxResolve, hgo]
    simp [resolveGo]
  · intro pre post r id hpre hr hcache
    rw [ctxResolve, resolveGo_all_fail req ctx pre (r :: post) [] hpre]
    cases hcache with
    | inl h => simp only [resolveGo, hr, h]
    | inr h => simp [resolveGo, hr, h]

/-- C6: a strategy that returns a non-Module object, or a Module instance
different from the one already cached under the same filename, makes
`Context.resolve` raise `RuntimeError` — an internal consistency error with a
constructor distinct from `ResolveError` — and in neither case is a
`ResolveError` raised. -/
theorem resolve_internal_error_cases (ctx : Ctx) (req : Request)
    (pre post : List Resolver) (r : Resolver)
    (hpre : ∀ s ∈ pre, ∃ paths, s req = ROut.fail req paths) :
    (∀ tn, r req = ROut.ret (RObj.nonModule tn) →
       ctxResolve (pre ++ r :: post) ctx req
         = (ctx, Except.error (Exc.runtimeError (nonModuleMsg tn)))
       ∧ ∀ q ps, (ctxResolve (pre ++ r :: post) ctx req).2
         ≠ Except.error (Exc.resolveError q ps))
  ∧ (∀ (id haveId : Nat), r req = ROut.ret (RObj.moduleRef id) →
       dictGet ctx.modules (getMod ctx id).filename = some haveId → haveId ≠ id →
       ctxResolve (pre ++ r :: post) ctx req
         = (ctx, Except.error (Exc.runtimeError collisionMsg))
       ∧ ∀ q ps, (ctxResolve (pre ++ r :: post) ctx req).2
         ≠ Except.error (Exc.resolveError q ps)) := by
  constructor
  · intro tn hr
    have hres : ctxResolve (pre ++ r :: post) ctx req
        = (ctx, Except.error (Exc.runtimeError (nonModuleMsg tn))) := by
      rw [ctxResolve, resolveGo_all_fail req ctx pre (r :: post) [] hpre]
      simp only [resolveGo, hr]
    refine ⟨hres, ?_⟩
    intro q ps
    rw [hres]
    simp
  · intro id haveId hr hm hne
    have hres : ctxResolve (pre ++ r :: post) ctx req
        = (ctx, Except.error (Exc.runtimeError collisionMsg)) := by
      rw [ctxResolve, resolveGo_all_fail req ctx pre (r :: post) [] hpre]
      simp only [resolveGo, hr, hm, if_neg hne]
    refine ⟨hres, ?_⟩
    intro q ps
    rw [hres]
    simp

/-- C10: `Context.resolve` writes to the module cache only on success.
Whenever it raises — the aggregate `ResolveError`, either internal
`RuntimeError`, or the request-identity assertion — the entire engine state
(in particular `Context.modules`) is returned exactly as it was; on success
the only mutation is the cache entry for the returned module, written under
its filename. -/
theorem resolve_cache_only_on_success (resolvers : List Resolver) (ctx : Ctx)
    (req : Request) :
    (∀ e, (ctxResolve resolvers ctx req).2 = Except.error e →
       (ctxResolve resolvers ctx req).1 = ctx)
  ∧ (∀ id, (ctxResolve resolvers ctx req).2 = Except.ok id →
       (ctxResolve resolvers ctx req).1
         = { ctx with modules := dictSet ctx.modules (getMod ctx id).filename id }) := by
  constructor
  · intro e he
    cases resolveGo_cases req ctx resolvers [] with
    | inl h =>
      obtain ⟨e1, h1⟩ := h
      rw [ctxResolve, h1]
    | inr h =>
      obtain ⟨id, h1⟩ := h
      rw [ctxResolve] at he
      rw [h1] at he
      simp at he
  · intro id hid
    cases resolveGo_cases req ctx resolvers [] with
    | inl h =>
      obtain ⟨e1, h1⟩ := h
      rw [ctxResolve] at hid
      rw [h1] at hid
      simp at hid
    | inr h =>
      obtain ⟨id1, h1⟩ := h
      rw [ctxResolve] at hid ⊢
      rw [h1] at hid ⊢
      simp at hid
      rw [hid]

/-- C7: `Require.resolve` memoizes by request string in the facade's own
cache.  It returns the cached Module instance without consulting the Engine
(the whole engine state is returned untouched, for any resolver chain)
exactly when a cache entry exists and that module has no stored error; it
re-walks the Engine's chain when the entry is missing or the cached module
carries a stored load error; and the re-walk overwrites the facade cache
entry exactly when `Context.resolve` returns normally. -/
theorem require_resolve_memoization (resolvers : List Resolver) (ctx : Ctx)
    (fc : Facade) (request : String) :
    (∀ id, dictGet fc.cache request = some id →
       (getMod ctx id).exception = Option.none →
       requireResolve resolvers ctx fc request = (ctx, fc, Except.ok id))
  ∧ (dictGet fc.cache request = Option.none →
       requireResolve resolvers ctx fc request
         = requireReResolve resolvers ctx fc request)
  ∧ (∀ id e, dictGet fc.cache request = some id →
       (getMod ctx id).exception = some e →
       requireResolve resolvers ctx fc request
         = requireReResolve resolvers ctx fc request)
  ∧ (∀ ctx1 id1,
       ctxResolve resolvers ctx (Request.mk request fc.directory fc.path)
         = (ctx1, Except.ok id1) →
       requireReResolve resolvers ctx fc request
         = (ctx1, { fc with cache := dictSet fc.cache request id1 }, Except.ok id1))
  ∧ (∀ ctx1 e,
       ctxResolve resolvers ctx (Request.mk request fc.directory fc.path)
         = (ctx1, Except.error e) →
       requireReResolve resolvers ctx fc request = (ctx1, fc, Except.error e)) := by
  refine ⟨?_, ?_, ?_, ?_, ?_⟩
  · intro id h1 h2
    simp [requireResolve, h1, h2]
  · intro h1
    simp [requireResolve, h1]
  · intro id e h1 h2
    simp [requireResolve, h1, h2]
  · intro ctx1 id1 hres
    simp [requireReResolve, hres]
  · intro ctx1 e hres
    simp [requireReResolve, hres]

/-- C8: the value handed back by `Require.__call__` for a resolved, loaded
module: with exports wanted it is `module.exports` whenever that slot has
been set — including an exports value explicitly set to `Val.none`, which is
returned as-is rather than being replaced by the namespace — and
`module.namespace` only when the slot still holds the distinct
`NotImplemented` sentinel; with exports not wanted, the Module object itself
is returned. -/
theorem require_call_exports_unwrap (fuel : Nat) (bodies : Nat → Body)
    (resolvers : List Resolver) (ctx : Ctx) (fc : Facade) (request : String)
    (id : Nat)
    (hfc : dictGet fc.cache request = some id)
    (hexc : (getMod ctx id).exception = Option.none)
    (hloaded : (getMod ctx id).loaded = true) :
    (∀ v, (getMod ctx id).exportsVal = some v →
       requireCall fuel bodies resolvers ctx fc request true
         = (ctx, fc, Except.ok (CallResult.val v)))
  ∧ ((getMod ctx id).exportsVal = Option.none →
       requireCall fuel bodies resolvers ctx fc request true
         = (ctx, fc, Except.ok (CallResult.val (getMod ctx id).namespaceVal)))
  ∧ (requireCall fuel bodies resolvers ctx fc request false
       = (ctx, fc, Except.ok (CallResult.modRef id))) := by
  have hres : requireResolve resolvers ctx fc request = (ctx, fc, Except.ok id) := by
    simp [requireResolve, hfc, hexc]
  refine ⟨?_, ?_, ?_⟩
  · intro v hv
    simp [requireCall, hres, hloaded, unwrapExports, hv]
  · intro hv
    simp [requireCall, hres, hloaded, unwrapExports, hv]
  · simp [requireCall, hres, hloaded, unwrapExports]

theorem tryGo_acc (attempt : String → Except Exc Val) (x : String)
    (xs : List String) (a b : Option Exc) :
    tryGo attempt (x :: xs) a = tryGo attempt (x :: xs) b := rfl

/-- C5: the semantics of `Require.try_` — zero requests raises
`ValueError('no requests specified')`; a successful candidate returns at
once; a `ResolveError` naming the candidate just attempted moves on to the
remaining candidates; when every candidate fails that way, the last
candidate's `ResolveError` is re-raised; a `ResolveError` whose stored
request string is not the candidate just attempted, and any
non-`ResolveError` failure, propagate immediately regardless of the
remaining candidates. -/
theorem try_many_semantics (attempt : String → Except Exc Val) :
    (tryMany attempt [] = Except.error (Exc.valueError ("no requests specified")))
  ∧ (∀ r rest v, attempt r = Except.ok v →
       tryMany attempt (r :: rest) = Except.ok v)
  ∧ (∀ r rest q paths,
       attempt r = Except.error (Exc.resolveError q paths) → q.string = r →
       rest ≠ [] → tryMany attempt (r :: rest) = tryMany attempt rest)
  ∧ (∀ r q paths,
       attempt r = Except.error (Exc.resolveError q paths) → q.string = r →
       tryMany attempt [r] = Except.error (Exc.resolveError q paths))
  ∧ (∀ rs r,
       (∀ x ∈ rs ++ [r], ∃ q paths,
          attempt x = Except.error (Exc.resolveError q paths) ∧ q.string = x) →
       tryMany attempt (rs ++ [r]) = attempt r)
  ∧ (∀ r rest q paths,
       attempt r = Except.error (Exc.resolveError q paths) → q.string ≠ r →
       tryMany attempt (r :: rest) = Except.error (Exc.resolveError q paths))
  ∧ (∀ r rest e, attempt r = Except.error e →
       (∀ q paths, e ≠ Exc.resolveError q paths) →
       tryMany attempt (r :: rest) = Except.error e) := by
  have hstep : ∀ r rest q paths acc,
      attempt r = Except.error (Exc.resolveError q paths) → q.string = r →
      tryGo attempt (r :: rest) acc
        = tryGo attempt rest (some (Exc.resolveError q paths)) := by
    intro r rest q paths acc h hq
    simp only [tryGo, h]
    rw [if_neg (by simp [hq])]
  refine ⟨rfl, ?_, ?_, ?_, ?_, ?_, ?_⟩
  · intro r rest v h
    simp [tryMany, tryGo, h]
  · intro r rest q paths h hq hne
    rw [tryMany, hstep r rest q paths Option.none h hq]
    cases rest with
    | nil => exact absurd rfl hne
    | cons x xs => exact tryGo_acc attempt x xs _ _
  · intro r q paths h hq
    rw [tryMany, hstep r [] q paths Option.none h hq]
    rfl
  · intro rs
    induction rs with
    | nil =>
      intro r h
      obtain ⟨q, paths, hx, hq⟩ := h r (by simp)
      rw [List.nil_append, tryMany, hstep r [] q paths Option.none hx hq, hx]
      rfl
    | cons x xs ih =>
      intro r h
      obtain ⟨q, paths, hx, hq⟩ := h x (by simp)
      have hrest : ∀ y ∈ xs ++ [r], ∃ q paths,
          attempt y = Except.error (Exc.resolveError q paths) ∧ q.string = y :=
        fun y hy => h y (by simp [hy])
      rw [List.cons_append, tryMany, hstep x (xs ++ [r]) q paths Option.none hx hq]
      have hne : xs ++ [r] ≠ [] := by simp
      cases hxs : xs ++ [r] with
      | nil => exact absurd hxs hne
      | cons z zs =>
        rw [tryGo_acc attempt z zs (some (Exc.resolveError q paths)) Option.none]
        rw [← hxs]
        rw [← tryMany]
        exact ih r hrest
  · intro r rest q paths h hq
    simp only [tryMany, tryGo, h]
    rw [if_pos hq]
  · intro r rest e h hne
    cases e with
    | resolveError q paths => exact absurd rfl (hne q paths)
    | runtimeError m => simp only [tryMany, tryGo, h]
    | valueError m => simp only [tryMany, tryGo, h]
    | keyError k => simp only [tryMany, tryGo, h]
    | assertionError => simp only [tryMany, tryGo, h]
    | indexError => simp only [tryMany, tryGo, h]
    | recursionError => simp only [tryMany, tryGo, h]
    | loadError m => simp only [tryMany, tryGo, h]

/-- Instantiation of `load_failure_handling` (C2): loading `m.py` with a body
that raises stores the error, evicts the cache entry, pops the stack and
re-raises. -/
theorem load_failure_handling_check :
    loadModuleWith w2body w2ctx 0 true
      = ({ pushedState w2ctx 0 true with
             heap := setMod (pushedState w2ctx 0 true).heap 0
               (fun m => { m with exception := some (Exc.loadError ("boom")) }),
             modules := dictDel (pushedState w2ctx 0 true).modules
               (getMod (pushedState w2ctx 0 true) 0).filename,
             moduleStack := (pushedState w2ctx 0 true).moduleStack.dropLast },
         Except.error (Exc.loadError ("boom"))) :=
  (load_failure_handling w2body w2ctx 0 true 0 rfl rfl rfl).1
    (pushedState w2ctx 0 true) (Exc.loadError ("boom")) 0 rfl rfl rfl

/-- Instantiation of `sticky_error_replay` (C3): module 1 of `wCtx` carries a
stored load error, which any further `Context.load_module` re-raises with the
state untouched. -/
theorem sticky_error_replay_check :
    loadModuleWith w2body wCtx 1 true = (wCtx, Except.error (Exc.loadError ("boom"))) :=
  sticky_error_replay.1 w2body wCtx 1 true (Exc.loadError ("boom")) rfl

/-- Instantiation of `load_module_guard_precedence` (C9): the evicted module
of `w9ctx` has a stored error and no cache entry; the stored error still wins
over the `not in Context.modules` check. -/
theorem load_module_guard_precedence_check :
    loadModuleWith w2body w9ctx 0 false = (w9ctx, Except.error Exc.recursionError)
    ∧ dictGet w9ctx.modules (getMod w9ctx 0).filename = Option.none :=
  ⟨load_module_guard_precedence.1 w2body w9ctx 0 false Exc.recursionError rfl, rfl⟩

/-- Instantiation of `resolve_order_and_aggregate` (C4): two strategies, each
failing with its own tried locations; the aggregate error concatenates them
in chain order. -/
theorem resolve_order_and_aggregate_check :
    ctxResolve [wres1, wres2] wCtx wreq
      = (wCtx, Except.error
          (Exc.resolveError wreq [("/d/x"), ("/d/x.py"), ("/lib/x")])) :=
  (resolve_order_and_aggregate wCtx wreq).1 [wres1, wres2]
    (by
      intro s hs
      rcases List.mem_cons.mp hs with h | hs2
      · subst h; exact ⟨_, rfl⟩
      · rcases List.mem_cons.mp hs2 with h | h
        · subst h; exact ⟨_, rfl⟩
        · exact absurd h (List.not_mem_nil s))

/-- Instantiation of `resolve_internal_error_cases` (C6): a strategy
returning the non-Module object `int` after one failing strategy yields
`RuntimeError`, not `ResolveError`. -/
theorem resolve_internal_error_cases_check :
    ctxResolve [wres1, wresBad] wCtx wreq
      = (wCtx, Except.error (Exc.runtimeError (nonModuleMsg ("int")))) :=
  ((resolve_internal_error_cases wCtx wreq [wres1] [] wresBad
      (by
        intro s hs
        rcases List.mem_cons.mp hs with h | h
        · subst h; exact ⟨_, rfl⟩
        · exact absurd h (List.not_mem_nil s))).1 ("int") rfl).1

/-- Instantiation of `resolve_cache_only_on_success` (C10): a failing chain
leaves the engine state exactly as it was. -/
theorem resolve_cache_only_on_success_check :
    (ctxResolve [wres1] wCtx wreq).1 = wCtx :=
  (resolve_cache_only_on_success [wres1] wCtx wreq).1
    (Exc.resolveError wreq [("/d/x"), ("/d/x.py")]) rfl

/-- Instantiation of `try_many_semantics` (C5): zero requests, a not-found
followed by a success, and two not-founds (the last error is re-raised). -/
theorem try_many_semantics_check :
    tryMany wAttempt [] = Except.error (Exc.valueError ("no requests specified"))
    ∧ tryMany wAttempt [("a"), ("ok")] = Except.ok (Val.int 1)
    ∧ tryMany wAttempt [("a"), ("b")]
        = Except.error (Exc.resolveError
            { string := ("b"), directory := ("/d"), path := [] } [("/p")]) := by
  refine ⟨(try_many_semantics wAttempt).1, ?_, ?_⟩
  · have h1 := (try_many_semantics wAttempt).2.2.1 ("a") [("ok")]
      { string := ("a"), directory := ("/d"), path := [] } [("/p")] rfl rfl (by simp)
    have h2 := (try_many_semantics wAttempt).2.1 ("ok") ([] : List String)
      (Val.int 1) rfl
    rw [h1, h2]
  · have h1 := (try_many_semantics wAttempt).2.2.2.2.1 [("a")] ("b")
      (by
        intro x hx
        rcases List.mem_cons.mp hx with h | hx2
        · subst h; exact ⟨_, _, rfl, rfl⟩
        · rcases List.mem_cons.mp hx2 with h | h
          · subst h; exact ⟨_, _, rfl, rfl⟩
          · exact absurd h (List.not_mem_nil x))
    rw [show ([("a")] ++ [("b")] : List String) = [("a"), ("b")] from rfl] at h1
    rw [h1]
    rfl

/-- Instantiation of `require_resolve_memoization` (C7): a cached module with
no stored error is returned with the engine untouched. -/
theorem require_resolve_memoization_check :
    requireResolve [wres1] wCtx wFacade ("r") = (wCtx, wFacade, Except.ok 0) :=
  (require_resolve_memoization [wres1] wCtx wFacade ("r")).1 0 rfl rfl

/-- Instantiation of `require_call_exports_unwrap` (C8): module 0's exports
slot is explicitly set to `Val.none`, and that value — not the namespace
`Val.int 7` — is returned. -/
theorem require_call_exports_unwrap_check :
    requireCall 0 wBodies [] wCtx wFacade ("r") true
      = (wCtx, wFacade, Except.ok (CallResult.val Val.none)) :=
  (require_call_exports_unwrap 0 wBodies [] wCtx wFacade ("r") 0 rfl rfl rfl).1
    Val.none rfl

end Nodepy
